import Mathlib

/-!
A shallow embedding of the `eris` error-handling library (package `eris`,
files `eris.go`, `format.go`, `codes.go`) and proofs about its behaviour.

Modelling conventions:
* Go interface values of type `error` are modelled by the inductive `EErr`
  (with `Option EErr` standing for a possibly-nil `error`).  The two native
  node types `rootError` and `wrapError` are constructors carrying exactly
  the Go struct fields in source order.  Foreign (non-eris) errors are
  modelled by three representative shapes: a plain leaf (`errors.New`
  style, no capabilities), a standard-library join aggregate
  (`errors.Join` result, exposing `Unwrap() []error`), and a single
  wrapper (`fmt.Errorf("...: %w", inner)` style, exposing `Unwrap() error`).
* Go `map[string]any` property maps are modelled as association lists of
  `String × Val`; `map` assignment is `kvSet` (replace-or-append), and the
  sorted-key order of Go's `fmt` map printing is reproduced by sorting at
  print time.
* The call-stack recorder lives in a source file that is not part of the
  provided sources (`callers`, `caller`, `insertPC`, `isGlobal`,
  `Stack.format`); those pieces are modelled from the specification, as
  noted on each definition.  In particular the capture results (`stack`,
  `frame`) are passed to each constructing operation as explicit inputs,
  since they are data read from the runtime call stack.
* In-place mutation of a shared root's stack is rendered in value
  semantics: each operation returns the chain whose embedded root carries
  the updated stack, which is how the mutation is observed through any
  alias in Go.
-/

namespace Eris

/-- `Code` is an error code that indicates the category of error
(`type Code int` in `codes.go`; the zero value `0` is not one of the
declared constants but is representable, exactly as in Go). -/
abbrev Code := Nat

/-- `CodeCanceled ... CodeUnauthenticated`, declared with `iota + 1`. -/
def CodeCanceled : Code := 1
def CodeUnknown : Code := 2
def CodeInvalidArgument : Code := 3
def CodeDeadlineExceeded : Code := 4
def CodeNotFound : Code := 5
def CodeAlreadyExists : Code := 6
def CodePermissionDenied : Code := 7
def CodeResourceExhausted : Code := 8
def CodeFailedPrecondition : Code := 9
def CodeAborted : Code := 10
def CodeOutOfRange : Code := 11
def CodeUnimplemented : Code := 12
def CodeInternal : Code := 13
def CodeUnavailable : Code := 14
def CodeDataLoss : Code := 15
def CodeUnauthenticated : Code := 16

/-- Default error code assigned when using `eris.New`. -/
def DEFAULT_ERROR_CODE_NEW : Code := CodeUnknown
/-- Default error code assigned when using `eris.Wrap` or `Wrapf`. -/
def DEFAULT_ERROR_CODE_WRAP : Code := CodeInternal
/-- Fallback code when you cannot determine what code it is. -/
def DEFAULT_UNKNOWN_CODE : Code := CodeUnknown

/-- The `defaultErrorCodes` lookup table together with the fallback of
`Code.String()`: a code outside the table (including the zero value `0`)
prints as the label of `DEFAULT_ERROR_CODE_NEW`, i.e. `"unknown"`. -/
def codeString (c : Code) : String :=
  if c = CodeAborted then "aborted"
  else if c = CodeAlreadyExists then "already exists"
  else if c = CodeCanceled then "canceled"
  else if c = CodeDataLoss then "data loss"
  else if c = CodeDeadlineExceeded then "deadline exceeded"
  else if c = CodeFailedPrecondition then "failed precondition"
  else if c = CodeInternal then "internal"
  else if c = CodeInvalidArgument then "invalid argument"
  else if c = CodeNotFound then "not found"
  else if c = CodeOutOfRange then "out of range"
  else if c = CodePermissionDenied then "permission denied"
  else if c = CodeResourceExhausted then "resource exhausted"
  else if c = CodeUnauthenticated then "unauthenticated"
  else if c = CodeUnavailable then "unavailable"
  else if c = CodeUnknown then "unknown"
  else if c = CodeUnimplemented then "unimplemented"
  else "unknown"

/-- A property value stored in a node's `map[string]any` (`any` restricted
to a representative set of printable, comparable values). -/
inductive Val where
  | vstr (s : String)
  | vint (n : Int)
  | vbool (b : Bool)
deriving DecidableEq, Repr

/-- Go `fmt` `%v` rendering of a property value. -/
def vToString : Val → String
  | .vstr s => s
  | .vint n => toString n
  | .vbool b => if b then "true" else "false"

/-- Modelled from the spec: a `Frame` holds "function name, file, line";
symbol resolution is treated as already performed (the recorder's program
counters and deferred resolution live in the missing stack-recorder file). -/
structure StackFrame where
  name : String
  file : String
  line : Nat
deriving DecidableEq, Repr

/-- Modelled from the spec: a `Stack` is an "ordered sequence of Frames,
capture order = most-recent-call-first". -/
abbrev Stack := List StackFrame

/-- The error-chain data model.  `rootError` and `wrapError` carry the Go
struct fields of `eris.go` in source order; the remaining constructors are
representative foreign error shapes (see the header comment). -/
inductive EErr where
  | rootError (global : Bool) (msg : String) (ext : Option EErr) (stack : Stack)
      (code : Code) (kvs : List (String × Val))
  | wrapError (msg : String) (err : EErr) (frame : StackFrame) (code : Code)
      (kvs : List (String × Val))
  | extBasic (msg : String)
  | extJoin (members : List EErr)
  | extLayer (msg : String) (inner : EErr)

/-- Go `map[string]any` assignment `m[k] = v`: replace the entry if the key
is present, otherwise add it. -/
def kvSet : List (String × Val) → String → Val → List (String × Val)
  | [], k, v => [(k, v)]
  | (k', v') :: rest, k, v =>
      if k' = k then (k, v) :: rest else (k', v') :: kvSet rest k v

/-- Go `map[string]any` read `m[k]` (first matching key). -/
def kvLookup : List (String × Val) → String → Option Val
  | [], _ => none
  | (k', v') :: rest, k => if k' = k then some v' else kvLookup rest k

/-- Key-sorted insertion, used only to reproduce Go's `fmt` rule that maps
print with their keys in sorted order. -/
def kvSortInsert (p : String × Val) : List (String × Val) → List (String × Val)
  | [] => [p]
  | q :: rest => if p.1 ≤ q.1 then p :: q :: rest else q :: kvSortInsert p rest

/-- Sort an association list by key for printing. -/
def kvSort : List (String × Val) → List (String × Val)
  | [] => []
  | p :: rest => kvSortInsert p (kvSort rest)

/-- Go `fmt` `%v` rendering of a `map[string]Val`: `map[k1:v1 k2:v2]` with
keys in sorted order. -/
def kvsToString (kvs : List (String × Val)) : String :=
  "map[" ++ String.intercalate " " ((kvSort kvs).map (fun p => p.1 ++ ":" ++ vToString p.2)) ++ "]"

/-- `eris.Unwrap` / the `Unwrap` methods, on a single node: `wrapError`
returns its contained error, `rootError` returns its `ext` field (possibly
nil), and of the foreign shapes only the single wrapper exposes an
`Unwrap() error` method (a join aggregate's `Unwrap() []error` does not
match the single-error interface, so it yields nil). -/
def unwrapE : EErr → Option EErr
  | .rootError _ _ ext _ _ _ => ext
  | .wrapError _ e _ _ _ => some e
  | .extBasic _ => none
  | .extJoin _ => none
  | .extLayer _ i => some i

/-- `eris.Unwrap` on a possibly-nil error: a nil error has no `Unwrap`
method, so the result is nil. -/
def Unwrap (err : Option EErr) : Option EErr :=
  match err with
  | none => none
  | some e => unwrapE e

/-- The loop of `eris.Cause` on a non-nil error: repeat `Unwrap` until it
returns nil and hand back the last non-nil error. -/
def causeE : EErr → EErr
  | .rootError g m none st c k => .rootError g m none st c k
  | .rootError _ _ (some x) _ _ _ => causeE x
  | .wrapError _ e _ _ _ => causeE e
  | .extBasic m => .extBasic m
  | .extJoin ms => .extJoin ms
  | .extLayer _ i => causeE i

/-- `eris.Cause`: nil input returns nil, otherwise the loop above. -/
def Cause (err : Option EErr) : Option EErr :=
  match err with
  | none => none
  | some e => some (causeE e)

/-- The effect of `root.stack.insertPC(*stack)` in the `*wrapError` branch
of `wrap`, in value semantics: rebuild the chain with the node found by
`Cause`, when it is a `rootError`, carrying the inserted frame at the head
of its stack; when `Cause` lands on a foreign leaf nothing changes.
The insertion itself (`insertPC`, missing stack-recorder file) is
modelled from the spec: "`insert(stack, frame)` prepends a frame to an
existing Stack" using "the fresh single Frame" captured at the wrap call
site. -/
def insertAtCauseRoot : EErr → StackFrame → EErr
  | .rootError g m none st c k, fr => .rootError g m none (fr :: st) c k
  | .rootError g m (some x) st c k, fr => .rootError g m (some (insertAtCauseRoot x fr)) st c k
  | .wrapError m e f c k, fr => .wrapError m (insertAtCauseRoot e fr) f c k
  | .extBasic m, _ => .extBasic m
  | .extJoin ms, _ => .extJoin ms
  | .extLayer m i, fr => .extLayer m (insertAtCauseRoot i fr)

/-- `eris.wrap` (eris.go).  The two capture results — `stack := callers(4)`
and `frame := caller(3)`, both taken at the wrap call site — are explicit
inputs (the recorder lives in the missing stack file and is modelled from
the spec: "Capture a fresh Stack and a fresh single Frame at the call
site").  A global root is replaced by a brand-new `rootError` carrying
only the copied `global`, `msg`, `code` fields and the fresh stack, as in
the source; a local root gets the fresh frame inserted into its stack
(`insertPC`, modelled from the spec as prepending the fresh frame); a
`wrapError` gets the insertion applied at its `Cause` root; anything else
becomes the `ext` of a brand-new root. -/
def wrap (stack : Stack) (frame : StackFrame) (err : Option EErr) (msg : String)
    (code : Code) : Option EErr :=
  match err with
  | none => none
  | some (.rootError g m ext st c k) =>
      if g then
        some (.wrapError msg (.rootError g m none stack c []) frame code [])
      else
        some (.wrapError msg (.rootError g m ext (frame :: st) c k) frame code [])
  | some (.wrapError m e f c k) =>
      some (.wrapError msg (insertAtCauseRoot (.wrapError m e f c k) frame) frame code [])
  | some e =>
      some (.rootError false msg (some e) stack code [])

/-- `eris.New`: a fresh root with code `unknown`.  The `global` flag is the
result of the `stack.isGlobal()` heuristic, which lives in the missing
stack-recorder file; modelled from the spec ("a best-effort heuristic
deciding whether a root was constructed outside any request-scoped call")
as an explicit input. -/
def New (global : Bool) (stack : Stack) (msg : String) : EErr :=
  .rootError global msg none stack DEFAULT_ERROR_CODE_NEW []

/-- `eris.Errorf`: as `New`, receiving the already-formatted message. -/
def Errorf (global : Bool) (stack : Stack) (msg : String) : EErr :=
  .rootError global msg none stack DEFAULT_ERROR_CODE_NEW []

/-- `eris.Wrap`: `wrap` with the default wrap code `internal`. -/
def Wrap (stack : Stack) (frame : StackFrame) (err : Option EErr) (msg : String) : Option EErr :=
  wrap stack frame err msg DEFAULT_ERROR_CODE_WRAP

/-- `eris.Wrapf`: as `Wrap`, receiving the already-formatted message. -/
def Wrapf (stack : Stack) (frame : StackFrame) (err : Option EErr) (msg : String) : Option EErr :=
  wrap stack frame err msg DEFAULT_ERROR_CODE_WRAP

/-- `eris.Join`: `errors.Join` of the standard library drops nil arguments
and returns nil when none remain, otherwise a join aggregate of the
non-nil arguments in order; a non-nil aggregate is passed to `wrap` with
message `"join error"` and code `DEFAULT_ERROR_CODE_NEW`. -/
def Join (stack : Stack) (frame : StackFrame) (errs : List (Option EErr)) : Option EErr :=
  match errs.filterMap id with
  | [] => none
  | nonNil => wrap stack frame (some (.extJoin nonNil)) "join error" DEFAULT_ERROR_CODE_NEW

/-- `eris.GetCode`: probe for a `Code()` capability; only the two native
node types expose one; everything else (foreign shapes and nil) falls back
to `DEFAULT_UNKNOWN_CODE`. -/
def GetCode : Option EErr → Code
  | some (.rootError _ _ _ _ c _) => c
  | some (.wrapError _ _ _ c _) => c
  | _ => DEFAULT_UNKNOWN_CODE

/-- `eris.GetKVs`: probe for a `KVs()` capability; the native nodes return
their property map (`nil` and the empty map are both rendered as `[]`),
everything else yields the nil map. -/
def GetKVs : Option EErr → List (String × Val)
  | some (.rootError _ _ _ _ _ k) => k
  | some (.wrapError _ _ _ _ k) => k
  | _ => []

/-- `eris.StackFrames`: a root yields its whole stack, a wrap node the
one-element sequence of its own frame, anything else (foreign or nil) the
empty sequence. -/
def StackFrames : Option EErr → List StackFrame
  | some (.rootError _ _ _ st _ _) => st
  | some (.wrapError _ _ f _ _) => [f]
  | _ => []

/-- A `Field` value as produced by `eris.Codes` / `eris.KVs` (struct
`Field` with its `FieldType` tag; `UnknownType` is representable and
ignored by `WithField`). -/
inductive Field where
  | codeF (code : Code)
  | kvF (key : String) (value : Val)
  | unknownF
deriving DecidableEq

/-- `Codes` returns a Field of CodeType. -/
def Codes (code : Code) : Field := .codeF code

/-- `KVs` returns a Field of KVType. -/
def KVs (key : String) (value : Val) : Field := .kvF key value

/-- The `WithField` method of the native nodes: a CodeType field sets the
node's code, a KVType field adds a key-value pair, anything else is a
no-op.  On a foreign shape nothing changes (the method does not exist
there; `With` never applies it to one). -/
def applyField (e : EErr) (f : Field) : EErr :=
  match e, f with
  | .rootError g m x st _ k, .codeF c2 => .rootError g m x st c2 k
  | .rootError g m x st c k, .kvF key v => .rootError g m x st c (kvSet k key v)
  | .wrapError m e' fr _ k, .codeF c2 => .wrapError m e' fr c2 k
  | .wrapError m e' fr c k, .kvF key v => .wrapError m e' fr c (kvSet k key v)
  | e, _ => e

/-- `eris.With`: nil stays nil; a native head node receives every field in
order; a foreign error is first wrapped (`Wrap(err, "with property")`,
which builds a root around it) and the fields are applied to that new
head.  The capture inputs play the role of the `Wrap` call-site capture. -/
def With (stack : Stack) (frame : StackFrame) (err : Option EErr) (fields : List Field) :
    Option EErr :=
  match err with
  | none => none
  | some (.rootError g m x st c k) => some (fields.foldl applyField (.rootError g m x st c k))
  | some (.wrapError m e f c k) => some (fields.foldl applyField (.wrapError m e f c k))
  | some e =>
      (wrap stack frame (some e) "with property" DEFAULT_ERROR_CODE_WRAP).map
        (fun e' => fields.foldl applyField e')

/-- `eris.WithCode`: `With` with a single CodeType field. -/
def WithCode (stack : Stack) (frame : StackFrame) (err : Option EErr) (code : Code) :
    Option EErr :=
  With stack frame err [Codes code]

/-- `eris.WithProperty`: `With` with a single KVType field. -/
def WithProperty (stack : Stack) (frame : StackFrame) (err : Option EErr) (key : String)
    (value : Val) : Option EErr :=
  With stack frame err [KVs key value]

/-- `eris.PassThroughf`: nil stays nil; otherwise wrap with the default
wrap code, then — only when the source's code is not `CodeUnknown` — copy
the source's code onto the new head, and copy every property of the
source onto the new head. -/
def PassThroughf (stack : Stack) (frame : StackFrame) (err : Option EErr) (msg : String) :
    Option EErr :=
  match err with
  | none => none
  | some e =>
      let newErr := wrap stack frame (some e) msg DEFAULT_ERROR_CODE_WRAP
      let code := GetCode (some e)
      let newErr := if code ≠ CodeUnknown then WithCode stack frame newErr code else newErr
      (GetKVs (some e)).foldl (fun acc p => WithProperty stack frame acc p.1 p.2) newErr

/-- `eris.PassThrough`: same as `PassThroughf` (the formatting of the
message happens before the model receives it). -/
def PassThrough (stack : Stack) (frame : StackFrame) (err : Option EErr) (msg : String) :
    Option EErr :=
  PassThroughf stack frame err msg

/-- The `rootError` reached from a chain head by following the `err` links
of `wrapError` nodes only (the unique root node of a native chain). -/
def chainRootE : EErr → Option EErr
  | .rootError g m x st c k => some (.rootError g m x st c k)
  | .wrapError _ e _ _ _ => chainRootE e
  | _ => none

/-- `chainRootE` lifted to possibly-nil errors. -/
def chainRoot (err : Option EErr) : Option EErr :=
  match err with
  | none => none
  | some e => chainRootE e

/-- The stack of the chain's root node, when there is one. -/
def chainRootStack (err : Option EErr) : Option Stack :=
  match chainRoot err with
  | some (.rootError _ _ _ st _ _) => some st
  | _ => none

/-- Whether the chain's root node is marked global. -/
def chainRootGlobal (err : Option EErr) : Option Bool :=
  match chainRoot err with
  | some (.rootError g _ _ _ _ _) => some g
  | _ => none

/-! ### Chain flattening (`Unpack`) and the rendering engine (`format.go`) -/

/-- `FormatOptions` (format.go). -/
structure FormatOptions where
  invertOutput : Bool
  withTrace : Bool
  invertTrace : Bool
  withExternal : Bool
deriving DecidableEq

/-- `StringFormat` (format.go). -/
structure StringFormat where
  options : FormatOptions
  msgStackSep : String
  preStackSep : String
  stackElemSep : String
  errorSep : String
deriving DecidableEq

/-- `NewDefaultStringFormat` (format.go): with trace the separators are
newline/tab/colon/newline, without trace only the inter-error separator
`": "` is set (the rest stay zero-valued, i.e. empty). -/
def NewDefaultStringFormat (options : FormatOptions) : StringFormat :=
  if options.withTrace then
    { options := options, msgStackSep := "\n", preStackSep := "\t",
      stackElemSep := ":", errorSep := "\n" }
  else
    { options := options, msgStackSep := "", preStackSep := "",
      stackElemSep := "", errorSep := ": " }

/-- `JSONFormat` (format.go). -/
structure JSONFormat where
  options : FormatOptions
  stackElemSep : String
deriving DecidableEq

/-- `NewDefaultJSONFormat` (format.go). -/
def NewDefaultJSONFormat (options : FormatOptions) : JSONFormat :=
  { options := options, stackElemSep := ":" }

/-- `ErrRoot` (format.go): the root part of an `UnpackedError`. -/
structure ErrRoot where
  Msg : String
  Stack : Stack
  code : Code
  kvs : List (String × Val)
deriving DecidableEq, Repr

/-- `ErrLink` (format.go): one wrap layer of an `UnpackedError`. -/
structure ErrLink where
  Msg : String
  Frame : StackFrame
  code : Code
  kvs : List (String × Val)
deriving DecidableEq, Repr

/-- `UnpackedError` (format.go). -/
structure UnpackedError where
  ErrExternal : Option EErr
  ErrRoot : ErrRoot
  ErrChain : List ErrLink

/-- The zero value of `UnpackedError`, as declared by `var upErr
UnpackedError` in `Unpack`: nil external, a root with empty message, nil
stack, the zero `Code` (`0`, which is none of the declared constants) and
nil properties, and an empty chain. -/
def zeroUnpacked : UnpackedError :=
  { ErrExternal := none, ErrRoot := ⟨"", [], 0, []⟩, ErrChain := [] }

/-- The loop of `eris.Unpack`: a root node overwrites the accumulated
`ErrRoot` (the stack's program counters are resolved by `stack.get()`,
modelled as the identity since frames are stored resolved); a wrap node
prepends its link; any other node is recorded as the external error and
the walk stops; otherwise the walk continues with `Unwrap`. -/
def unpackGo : EErr → UnpackedError → UnpackedError
  | .rootError _ m ext st c k, acc =>
      let acc' := { acc with ErrRoot := ⟨m, st, c, k⟩ }
      (match ext with
       | none => acc'
       | some x => unpackGo x acc')
  | .wrapError m e f c k, acc =>
      unpackGo e { acc with ErrChain := ⟨m, f, c, k⟩ :: acc.ErrChain }
  | e, acc => { acc with ErrExternal := some e }

/-- `eris.Unpack`: run the loop from the zero value (a nil error never
enters the loop). -/
def Unpack (err : Option EErr) : UnpackedError :=
  match err with
  | none => zeroUnpacked
  | some e => unpackGo e zeroUnpacked

/-- Every error value has positive size (each constructor counts). -/
theorem EErr.sizeOf_pos : (e : EErr) → 0 < sizeOf e
  | .rootError .. => by simp_arith
  | .wrapError .. => by simp_arith
  | .extBasic _ => by simp_arith
  | .extJoin _ => by simp_arith
  | .extLayer .. => by simp_arith

/-- Every list has positive size. -/
theorem list_sizeOf_pos {α : Type} [SizeOf α] : (l : List α) → 0 < sizeOf l
  | [] => by simp
  | _ :: _ => by simp_arith

/-- Auxiliary size headroom of a node: a native node's terminal external
error sits at least two constructors below it. -/
def nativeHeadroom : EErr → Nat
  | .rootError .. => 2
  | .wrapError .. => 2
  | _ => 0

/-- The external error recorded by the `Unpack` loop is either inherited
from the accumulator or a subterm of the traversed error (with two
constructors of headroom below a native node). -/
theorem unpackGo_ext_bound : (e : EErr) → (acc : UnpackedError) →
    (unpackGo e acc).ErrExternal = acc.ErrExternal ∨
      ∃ x, (unpackGo e acc).ErrExternal = some x ∧ sizeOf x + nativeHeadroom e ≤ sizeOf e
  | .rootError g m ext st c k, acc => by
      match ext with
      | none => left; simp [unpackGo]
      | some y =>
          rcases unpackGo_ext_bound y { acc with ErrRoot := ⟨m, st, c, k⟩ } with h | ⟨x, hx, hle⟩
          · left; rw [unpackGo]; exact h
          · right
            refine ⟨x, ?_, ?_⟩
            · rw [unpackGo]; exact hx
            · have hst := list_sizeOf_pos st
              simp only [nativeHeadroom] at hle ⊢
              simp_arith
              omega
  | .wrapError m e f c k, acc => by
      rcases unpackGo_ext_bound e { acc with ErrChain := ⟨m, f, c, k⟩ :: acc.ErrChain } with
        h | ⟨x, hx, hle⟩
      · left; rw [unpackGo]; exact h
      · right
        refine ⟨x, ?_, ?_⟩
        · rw [unpackGo]; exact hx
        · have hf : 0 < sizeOf f := by cases f; simp_arith
          simp only [nativeHeadroom] at hle ⊢
          simp_arith
          omega
  | .extBasic s, acc => by
      right; exact ⟨.extBasic s, by simp [unpackGo], by simp [nativeHeadroom]⟩
  | .extJoin ms, acc => by
      right; exact ⟨.extJoin ms, by simp [unpackGo], by simp [nativeHeadroom]⟩
  | .extLayer s i, acc => by
      right; exact ⟨.extLayer s i, by simp [unpackGo], by simp [nativeHeadroom]⟩

/-- Size bound used for termination of the renderer: the external error of
an unpacked chain is no larger than the chain plus one `some`. -/
theorem unpack_ext_le (e : EErr) : sizeOf (Unpack (some e)).ErrExternal ≤ 1 + sizeOf e := by
  rcases unpackGo_ext_bound e zeroUnpacked with h | ⟨x, hx, hle⟩
  · show sizeOf (unpackGo e zeroUnpacked).ErrExternal ≤ 1 + sizeOf e
    rw [h]
    have := EErr.sizeOf_pos e
    simp [zeroUnpacked]; try omega
  · show sizeOf (unpackGo e zeroUnpacked).ErrExternal ≤ 1 + sizeOf e
    rw [hx]; simp; omega

/-- Strict size bound below a native chain head. -/
theorem unpack_ext_lt (e : EErr) (hnat : nativeHeadroom e = 2) :
    sizeOf (Unpack (some e)).ErrExternal < sizeOf e := by
  rcases unpackGo_ext_bound e zeroUnpacked with h | ⟨x, hx, hle⟩
  · show sizeOf (unpackGo e zeroUnpacked).ErrExternal < sizeOf e
    rw [h]
    match e, hnat with
    | .rootError g m ex st c k, _ =>
        have hst := list_sizeOf_pos st
        have hex : 1 ≤ sizeOf ex := by
          cases ex with
          | none => simp
          | some y => have := EErr.sizeOf_pos y; simp_arith
        simp [zeroUnpacked]
        simp_arith
        try omega
    | .wrapError m e' f c k, _ =>
        have he := EErr.sizeOf_pos e'
        have hf : 0 < sizeOf f := by cases f; simp_arith
        simp [zeroUnpacked]
        simp_arith
        omega
  · show sizeOf (unpackGo e zeroUnpacked).ErrExternal < sizeOf e
    rw [hx]; rw [hnat] at hle; simp; omega

/-- Modelled from the spec: render one frame as
`<function><sep><file><sep><line>` (the `StackFrame.format` method lives
in the missing stack-recorder file). -/
def frameFormat (f : StackFrame) (sep : String) : String :=
  f.name ++ sep ++ f.file ++ sep ++ toString f.line

/-- Modelled from the spec: `Stack.format` (missing stack-recorder file).
The capture order is most-recent-call-first and the sequence is
"invertible on render"; per the `InvertTrace` option comment ("top of
call stack shown first" when set), the default order is the reverse of
capture order. -/
def stackFormat (s : Stack) (sep : String) (invert : Bool) : List String :=
  (if invert then s else s.reverse).map (fun f => frameFormat f sep)

/-- The trace block of `ErrRoot.formatStr`: each frame is prefixed with
`PreStackSep` and frames are joined by `ErrorSep` (no trailing
separator). -/
def framesBlock (pre sep : String) : List String → String
  | [] => ""
  | [a] => pre ++ a
  | a :: rest => pre ++ a ++ sep ++ framesBlock pre sep rest

/-- `ErrRoot.formatStr` (format.go): `code(<label>)[ KVs(<map>)] <msg>`
followed by the trace block when enabled; a root with no properties, the
default `New` code, and an empty message renders as the empty string
("Do not print default errors"). -/
def ErrRoot.formatStr (err : ErrRoot) (format : StringFormat) : String :=
  let kvs := if err.kvs.length > 0 then " KVs(" ++ kvsToString err.kvs ++ ")" else ""
  if kvs = "" ∧ err.code = DEFAULT_ERROR_CODE_NEW ∧ err.Msg = "" then ""
  else
    let str := "code(" ++ codeString err.code ++ ")" ++ kvs ++ " " ++ err.Msg ++
      format.msgStackSep
    if format.options.withTrace then
      str ++ framesBlock format.preStackSep format.errorSep
        (stackFormat err.Stack format.stackElemSep format.options.invertTrace)
    else str

/-- `ErrLink.formatStr` (format.go): `code(<label>)[ KVs(<map>)] <msg>`
followed by the link's single frame when the trace is enabled. -/
def ErrLink.formatStr (eLink : ErrLink) (format : StringFormat) : String :=
  let kvs := if eLink.kvs.length > 0 then " KVs(" ++ kvsToString eLink.kvs ++ ")" else ""
  let str := "code(" ++ codeString eLink.code ++ ")" ++ kvs ++ " " ++ eLink.Msg ++
    format.msgStackSep
  if format.options.withTrace then
    str ++ format.preStackSep ++ frameFormat eLink.Frame format.stackElemSep
  else str

/-- A JSON-like value as stored in the `map[string]any` documents built by
`ToCustomJSON`: strings, arrays, nested documents, and raw property
maps. -/
inductive JVal where
  | jstr (s : String)
  | jarr (xs : List JVal)
  | jobj (fields : List (String × JVal))
  | jkvs (kvs : List (String × Val))

/-- `ErrRoot.formatJSON` (format.go): always `code` and `message`, plus
`KVs` when the root has properties and `stack` when the trace is
enabled. -/
def ErrRoot.formatJSON (err : ErrRoot) (format : JSONFormat) : List (String × JVal) :=
  [("code", JVal.jstr (codeString err.code)), ("message", JVal.jstr err.Msg)]
    ++ (if err.kvs ≠ [] ∧ err.kvs.length > 0 then [("KVs", JVal.jkvs err.kvs)] else [])
    ++ (if format.options.withTrace then
          [("stack", JVal.jarr ((stackFormat err.Stack format.stackElemSep
            format.options.invertTrace).map JVal.jstr))]
        else [])

/-- `ErrLink.formatJSON` (format.go). -/
def ErrLink.formatJSON (eLink : ErrLink) (format : JSONFormat) : List (String × JVal) :=
  [("code", JVal.jstr (codeString eLink.code)), ("message", JVal.jstr eLink.Msg)]
    ++ (if eLink.kvs ≠ [] ∧ eLink.kvs.length > 0 then [("KVs", JVal.jkvs eLink.kvs)] else [])
    ++ (if format.options.withTrace then
          [("stack", JVal.jstr (frameFormat eLink.Frame format.stackElemSep))]
        else [])

mutual

/-- The body of `ToCustomString` (format.go), taking the already-unpacked
view.  In the inverted branch the external text comes first (followed by a
newline when it is multi-line, or by `ErrorSep` when something from the
root will follow), then the root (preceded by a single space when nothing
separates it from a preceding external and there are no links), then the
links outer-most last, each preceded by `ErrorSep`.  In the default branch
the links come outer-most first, each followed by `ErrorSep`, then the
root, then the external part. -/
def toCustomStringUp (up : UnpackedError) (format : StringFormat) : String :=
  if format.options.invertOutput then
    let extPair : String × Bool :=
      match h : up.ErrExternal with
      | some x =>
          if format.options.withExternal then
            let externalStr := formatExternalStr x format.options.withTrace
            if externalStr.contains '\n' then (externalStr ++ "\n", false)
            else if (format.options.withTrace = true ∧ up.ErrRoot.Stack ≠ []) ∨
                up.ErrRoot.Msg ≠ "" then
              (externalStr ++ format.errorSep, true)
            else (externalStr, false)
          else ("", false)
      | none => ("", false)
    let rootErrStr := ErrRoot.formatStr up.ErrRoot format
    let space :=
      if extPair.2 = false ∧ rootErrStr.length > 0 ∧ up.ErrChain = [] then " " else ""
    extPair.1 ++ space ++ rootErrStr ++
      String.join (up.ErrChain.map (fun l => format.errorSep ++ ErrLink.formatStr l format))
  else
    String.join ((up.ErrChain.reverse).map
        (fun l => ErrLink.formatStr l format ++ format.errorSep)) ++
      ErrRoot.formatStr up.ErrRoot format ++
      (match h : up.ErrExternal with
       | some x =>
           if format.options.withExternal then
             let externalStr := formatExternalStr x format.options.withTrace
             (if externalStr.contains '\n' then "\n"
              else if (format.options.withTrace = true ∧ up.ErrRoot.Stack ≠ []) ∨
                  up.ErrRoot.Msg ≠ "" then format.errorSep
              else "") ++ externalStr
           else ""
       | none => "")
  termination_by (sizeOf up.ErrExternal, 0)
  decreasing_by
    all_goals simp_wf
    all_goals rw [h]
    all_goals exact Prod.Lex.left _ _ (by simp_arith)

/-- The body of `ToCustomJSON` (format.go), taking the already-unpacked
view: an `external`/`externals` part (`jsonExtPart`, the first `if` block
of the source body), a `root` part present exactly when the unpacked root
has a non-empty message or a non-empty stack, and a `wrap` part present
when there are links (outer-most last when inverted, outer-most first
otherwise). -/
def toCustomJSONUp (up : UnpackedError) (format : JSONFormat) : List (String × JVal) :=
  jsonExtPart up.ErrExternal format
  ++ (if up.ErrRoot.Msg ≠ "" ∨ up.ErrRoot.Stack ≠ [] then
        [("root", JVal.jobj (ErrRoot.formatJSON up.ErrRoot format))]
      else [])
  ++ (if up.ErrChain ≠ [] then
        [("wrap", JVal.jarr
          (if format.options.invertOutput then
            up.ErrChain.map (fun l => JVal.jobj (ErrLink.formatJSON l format))
          else
            (up.ErrChain.map (fun l => JVal.jobj (ErrLink.formatJSON l format))).reverse))]
      else [])
  termination_by (sizeOf up.ErrExternal, 1)
  decreasing_by
    exact Prod.Lex.right _ (by omega)

/-- The external part of the `ToCustomJSON` body: nothing for a nil
external or when `WithExternal` is off; an `externals` array recursing
into the members for a join aggregate; an `external` string otherwise. -/
def jsonExtPart (ext : Option EErr) (format : JSONFormat) : List (String × JVal) :=
  match ext with
  | some (.extJoin ms) =>
      if format.options.withExternal then
        [("externals", JVal.jarr (joinMemberJSON ms format))]
      else []
  | some x =>
      if format.options.withExternal then
        [("external", JVal.jstr (formatExternalStr x format.options.withTrace))]
      else []
  | none => []
  termination_by (sizeOf ext, 0)
  decreasing_by
    all_goals exact Prod.Lex.left _ _ (by simp_arith)

/-- The recursion of `ToCustomJSON` over the members of a join aggregate:
each member is rendered as a full document of its own. -/
def joinMemberJSON (ms : List EErr) (format : JSONFormat) : List JVal :=
  match ms with
  | [] => []
  | e :: rest => JVal.jobj (toCustomJSONUp (Unpack (some e)) format) :: joinMemberJSON rest format
  termination_by (sizeOf ms, 0)
  decreasing_by
    · exact Prod.Lex.left _ _ (by
        have := unpack_ext_le e
        have := list_sizeOf_pos rest
        simp_arith
        omega)
    · exact Prod.Lex.left _ _ (by simp_arith)

/-- `formatExternalStr` (format.go): a join aggregate renders each member
indented by a tab on every line and prefixed `i>`, members joined by
newlines; anything else renders as `fmt.Sprintf("%v"/"%+v", err)`. -/
def formatExternalStr (err : EErr) (withTrace : Bool) : String :=
  match err with
  | .extJoin ms => String.intercalate "\n" (joinMemberStrs ms 0 withTrace)
  | e => errFmt e withTrace
  termination_by (sizeOf err, 2)
  decreasing_by
    · exact Prod.Lex.left _ _ (by simp_arith)
    all_goals exact Prod.Lex.right _ (by omega)

/-- The per-member loop of `formatExternalStr`: member `i` renders as
`i>` followed by its (possibly multi-line) text with every line
tab-indented. -/
def joinMemberStrs (ms : List EErr) (i : Nat) (withTrace : Bool) : List String :=
  match ms with
  | [] => []
  | e :: rest =>
      (toString i ++ ">" ++
        String.intercalate "\n" (((errFmt e withTrace).splitOn "\n").map
          (fun line => "\t" ++ line)))
        :: joinMemberStrs rest (i + 1) withTrace
  termination_by (sizeOf ms, 0)
  decreasing_by
    all_goals exact Prod.Lex.left _ _ (by simp_arith)

/-- Go `fmt` `%v` (`withTrace = false`) or `%+v` (`withTrace = true`)
rendering of an error value: the native nodes implement `Format` via
`printError`, which calls `ToString` (i.e. `ToCustomString` with the
default format of the respective trace flag and `WithExternal` set); a
plain foreign leaf prints its message; a foreign single wrapper prints
`<msg>: <inner.Error()>`; a standard-library join aggregate prints its
members' `Error()` texts joined by newlines. -/
def errFmt (e : EErr) (withTrace : Bool) : String :=
  match e with
  | .rootError g m ex st c k =>
      toCustomStringUp (Unpack (some (.rootError g m ex st c k)))
        (NewDefaultStringFormat ⟨false, withTrace, false, true⟩)
  | .wrapError m e' f c k =>
      toCustomStringUp (Unpack (some (.wrapError m e' f c k)))
        (NewDefaultStringFormat ⟨false, withTrace, false, true⟩)
  | .extBasic m => m
  | .extLayer m i => m ++ ": " ++ errFmt i false
  | .extJoin ms => String.intercalate "\n" (memberErrStrs ms)
  termination_by (sizeOf e, 1)
  decreasing_by
    · exact Prod.Lex.left _ _ (unpack_ext_lt _ rfl)
    · exact Prod.Lex.left _ _ (unpack_ext_lt _ rfl)
    all_goals exact Prod.Lex.left _ _ (by simp_arith)

/-- The `Error()` texts of the members of a standard-library join
aggregate. -/
def memberErrStrs (ms : List EErr) : List String :=
  match ms with
  | [] => []
  | e :: rest => errFmt e false :: memberErrStrs rest
  termination_by (sizeOf ms, 0)
  decreasing_by
    all_goals exact Prod.Lex.left _ _ (by simp_arith)

end

/-- `eris.ToCustomString`: unpack, then render. -/
def ToCustomString (err : Option EErr) (format : StringFormat) : String :=
  toCustomStringUp (Unpack err) format

/-- `eris.ToString`: `ToCustomString` with the default string format for
the given trace flag and `WithExternal` set. -/
def ToString (err : Option EErr) (withTrace : Bool) : String :=
  ToCustomString err (NewDefaultStringFormat ⟨false, withTrace, false, true⟩)

/-- `eris.ToCustomJSON`: unpack, then render. -/
def ToCustomJSON (err : Option EErr) (format : JSONFormat) : List (String × JVal) :=
  toCustomJSONUp (Unpack err) format

/-- `eris.ToJSON`: `ToCustomJSON` with the default JSON format for the
given trace flag and `WithExternal` set. -/
def ToJSON (err : Option EErr) (withTrace : Bool) : List (String × JVal) :=
  ToCustomJSON err (NewDefaultJSONFormat ⟨false, withTrace, false, true⟩)

/-! ### Chain traversal and matching (`Is`) -/

/-- The `Error()` method of an error value: the native nodes print through
`printError`/`ToString` without trace; foreign shapes print their own
message text. -/
def errorMsg (e : EErr) : String := errFmt e false

mutual

/-- Go `==` on two error interface values, as used by `eris.Is`.  In Go
this is pointer equality for the pointer-shaped errors; it is modelled as
structural equality, which agrees with pointer equality whenever the two
values are the same allocation (the case exercised by the matching
claims) and over-approximates it otherwise. -/
def eeq : EErr → EErr → Bool
  | .rootError g1 m1 x1 s1 c1 k1, .rootError g2 m2 x2 s2 c2 k2 =>
      decide (g1 = g2) && decide (m1 = m2) && eeqOpt x1 x2 && decide (s1 = s2) &&
        decide (c1 = c2) && decide (k1 = k2)
  | .wrapError m1 e1 f1 c1 k1, .wrapError m2 e2 f2 c2 k2 =>
      decide (m1 = m2) && eeq e1 e2 && decide (f1 = f2) && decide (c1 = c2) &&
        decide (k1 = k2)
  | .extBasic m1, .extBasic m2 => decide (m1 = m2)
  | .extJoin l1, .extJoin l2 => eeqList l1 l2
  | .extLayer m1 i1, .extLayer m2 i2 => decide (m1 = m2) && eeq i1 i2
  | _, _ => false

def eeqOpt : Option EErr → Option EErr → Bool
  | none, none => true
  | some x, some y => eeq x y
  | _, _ => false

def eeqList : List EErr → List EErr → Bool
  | [], [] => true
  | x :: xs, y :: ys => eeq x y && eeqList xs ys
  | _, _ => false

end

mutual

theorem eeq_refl : (e : EErr) → eeq e e = true
  | .rootError g m x s c k => by simp [eeq]; exact eeqOpt_refl x
  | .wrapError m e f c k => by simp [eeq]; exact eeq_refl e
  | .extBasic m => by simp [eeq]
  | .extJoin l => by simp [eeq]; exact eeqList_refl l
  | .extLayer m i => by simp [eeq]; exact eeq_refl i

theorem eeqOpt_refl : (x : Option EErr) → eeqOpt x x = true
  | none => by simp [eeqOpt]
  | some e => by simp [eeqOpt]; exact eeq_refl e

theorem eeqList_refl : (l : List EErr) → eeqList l l = true
  | [] => by simp [eeqList]
  | x :: xs => by simp [eeqList]; exact ⟨eeq_refl x, eeqList_refl xs⟩

end

/-- The non-join part of `rootError.Is` (eris.go): a root or wrap target
matches on equal message, code, and deep-equal properties (Go `nil` and
the model's `[]` coincide); any other target matches when the root's
message equals the target's `Error()` text and the root's code is the
fallback `DEFAULT_UNKNOWN_CODE`. -/
def rootIsBase (m : String) (c : Code) (k : List (String × Val)) (target : EErr) : Bool :=
  match target with
  | .rootError _ m2 _ _ c2 k2 => decide (m = m2 ∧ c = c2 ∧ k = k2)
  | .wrapError m2 _ _ c2 k2 => decide (m = m2 ∧ c = c2 ∧ k = k2)
  | t => decide (m = errorMsg t ∧ c = DEFAULT_UNKNOWN_CODE)

/-- `wrapError.Is` (eris.go): like the root case but the fallthrough for
non-native targets compares only the message texts. -/
def wrapIsBase (m : String) (c : Code) (k : List (String × Val)) (target : EErr) : Bool :=
  match target with
  | .rootError _ m2 _ _ c2 k2 => decide (m = m2 ∧ c = c2 ∧ k = k2)
  | .wrapError m2 _ _ c2 k2 => decide (m = m2 ∧ c = c2 ∧ k = k2)
  | t => decide (m = errorMsg t)

mutual

/-- The loop of `eris.Is` for a non-nil target: at each node, Go `==`
against the target, then the node's `Is` method when it has one (a root
whose `ext` is a join aggregate delegates to `eris.Is` on each member and
never falls through to the field comparison; of the foreign shapes none
exposes an `Is` method), then continue with `Unwrap`; `false` once the
chain is exhausted. -/
def isChain : EErr → EErr → Bool
  | .rootError g m none st c k, t =>
      eeq (.rootError g m none st c k) t || rootIsBase m c k t
  | .rootError g m (some x) st c k, t =>
      eeq (.rootError g m (some x) st c k) t ||
        (match x with
         | .extJoin ms => isAnyMember ms t
         | _ => rootIsBase m c k t) ||
        isChain x t
  | .wrapError m e f c k, t =>
      eeq (.wrapError m e f c k) t || wrapIsBase m c k t || isChain e t
  | .extBasic m, t => eeq (.extBasic m) t
  | .extJoin ms, t => eeq (.extJoin ms) t
  | .extLayer m i, t => eeq (.extLayer m i) t || isChain i t

def isAnyMember : List EErr → EErr → Bool
  | [], _ => false
  | e :: rest, t => isChain e t || isAnyMember rest t

end

/-- `eris.Is`: a nil target matches exactly a nil error; a non-nil target
against a nil error walks an empty chain (false); otherwise the loop
above (every modelled target type is comparable, so the `reflect`
comparability guard is always passed). -/
def Is (err target : Option EErr) : Bool :=
  match target with
  | none => err.isNone
  | some t =>
      match err with
      | none => false
      | some e => isChain e t

/-- Whether a rendered JSON document carries a given top-level key. -/
def jsonHasKey (l : List (String × JVal)) (key : String) : Bool :=
  l.any (fun p => p.1 = key)

/-! ### Helper lemmas -/

/-- The zero `Code` is outside the label table and prints via the
fallback. -/
theorem codeString_zero : codeString 0 = "unknown" := by decide

/-- The zero-valued unpacked root (as produced by `Unpack` on nil) prints
as `code(unknown) ` followed by the message/stack separator: its code `0`
differs from `DEFAULT_ERROR_CODE_NEW`, so the default-error suppression
does not apply. -/
theorem zeroRoot_formatStr (f : StringFormat) :
    ErrRoot.formatStr ⟨"", [], 0, []⟩ f = "code(unknown) " ++ f.msgStackSep := by
  rw [ErrRoot.formatStr]
  simp [DEFAULT_ERROR_CODE_NEW, CodeUnknown, stackFormat, framesBlock, codeString_zero]

/-- Every error value matches itself in the `Is` walk (first loop check,
Go `==`). -/
theorem isChain_self (e : EErr) : isChain e e = true := by
  rw [isChain.eq_def]
  cases e with
  | rootError g m x st c k => cases x <;> simp [eeq_refl]
  | wrapError m e f c k => simp [eeq_refl]
  | extBasic m => simp [eeq_refl]
  | extJoin ms => simp [eeq_refl]
  | extLayer m i => simp [eeq_refl]

/-- The external part of a JSON document never carries the `root` key. -/
theorem jsonExtPart_no_root (ext : Option EErr) (jf : JSONFormat) :
    jsonHasKey (jsonExtPart ext jf) "root" = false := by
  rw [jsonExtPart.eq_def]
  cases ext with
  | none => rfl
  | some x =>
      cases x <;> by_cases h : jf.options.withExternal = true <;> simp [h, jsonHasKey]

/-- Setting a fresh key appends the pair. -/
theorem kvSet_not_mem (acc : List (String × Val)) (k : String) (v : Val)
    (h : k ∉ acc.map Prod.fst) : kvSet acc k v = acc ++ [(k, v)] := by
  induction acc with
  | nil => rfl
  | cons p rest ih =>
      simp only [List.map_cons, List.mem_cons] at h
      push_neg at h
      rw [kvSet, if_neg (fun hh => h.1 hh.symm), ih h.2]
      simp

/-- Folding map assignments of pairwise-distinct fresh keys over an
accumulator appends them in order. -/
theorem foldl_kvSet_append (src : List (String × Val)) :
    ∀ acc, (src.map Prod.fst).Nodup →
    (∀ k ∈ src.map Prod.fst, k ∉ acc.map Prod.fst) →
    src.foldl (fun a p => kvSet a p.1 p.2) acc = acc ++ src := by
  induction src with
  | nil => intro acc _ _; simp
  | cons p rest ih =>
      intro acc hnd hdisj
      simp only [List.map_cons, List.nodup_cons] at hnd
      rw [List.foldl_cons, kvSet_not_mem acc p.1 p.2 (hdisj p.1 (by simp))]
      rw [ih (acc ++ [(p.1, p.2)]) hnd.2 ?_]
      · simp
      · intro k hk
        simp only [List.map_append, List.mem_append, List.map_cons]
        push_neg
        constructor
        · exact hdisj k (by simp [hk])
        · intro hc
          simp at hc
          exact hnd.1 (hc ▸ hk)

/-- Folding the map assignments of a nodup-keyed association list into an
empty map reproduces the list. -/
theorem foldl_kvSet_nil (src : List (String × Val)) (hnd : (src.map Prod.fst).Nodup) :
    src.foldl (fun a p => kvSet a p.1 p.2) [] = src := by
  simpa using foldl_kvSet_append src [] hnd (by simp)

/-- Folding `WithProperty` over a root-headed error applies the map
assignments to the head's property map. -/
theorem foldl_withProperty_root (s : Stack) (f : StackFrame) (src : List (String × Val))
    (g : Bool) (m : String) (x : Option EErr) (st : Stack) (c : Code) :
    ∀ k, src.foldl (fun acc p => WithProperty s f acc p.1 p.2) (some (.rootError g m x st c k)) =
      some (.rootError g m x st c (src.foldl (fun a p => kvSet a p.1 p.2) k)) := by
  induction src with
  | nil => intro k; rfl
  | cons p rest ih =>
      intro k
      rw [List.foldl_cons, List.foldl_cons]
      exact ih (kvSet k p.1 p.2)

/-- Folding `WithProperty` over a wrap-headed error applies the map
assignments to the head's property map. -/
theorem foldl_withProperty_wrap (s : Stack) (f : StackFrame) (src : List (String × Val))
    (m : String) (e : EErr) (fr : StackFrame) (c : Code) :
    ∀ k, src.foldl (fun acc p => WithProperty s f acc p.1 p.2) (some (.wrapError m e fr c k)) =
      some (.wrapError m e fr c (src.foldl (fun a p => kvSet a p.1 p.2) k)) := by
  induction src with
  | nil => intro k; rfl
  | cons p rest ih =>
      intro k
      rw [List.foldl_cons, List.foldl_cons]
      exact ih (kvSet k p.1 p.2)

/-! ### The claims -/

/-- Claim C1, counterexample (corrected): wrapping a LinkNode whose chain
ends in a RootNode marked global does mutate that root's Stack.  With a
global root `g`, `e1 := Wrap(g, "m1")` yields a chain ending in a
RootNode still marked global; wrapping `e1` changes that root's stack, so
"the global root's Stack is left unchanged" fails at this input. -/
theorem claim_C1_counterexample :
    chainRootGlobal (Wrap [⟨"w1", "a.go", 1⟩] ⟨"w1", "a.go", 1⟩
      (some (EErr.rootError true "global error" none [⟨"init", "g.go", 5⟩] 2 [])) "m1") =
        some true ∧
    chainRootStack (Wrap [⟨"w2", "b.go", 2⟩] ⟨"w2", "b.go", 2⟩
      (Wrap [⟨"w1", "a.go", 1⟩] ⟨"w1", "a.go", 1⟩
        (some (EErr.rootError true "global error" none [⟨"init", "g.go", 5⟩] 2 [])) "m1")
      "m2") ≠
      chainRootStack (Wrap [⟨"w1", "a.go", 1⟩] ⟨"w1", "a.go", 1⟩
        (some (EErr.rootError true "global error" none [⟨"init", "g.go", 5⟩] 2 [])) "m1") := by
  refine ⟨by decide, by decide⟩

/-- Claim C1, amended: a direct wrap of a global RootNode allocates a
brand-new RootNode with the same message and code and the fresh capture
as its Stack (dropping the foreign cause and properties), leaving the
input value untouched; but a wrap of a LinkNode above it inserts the
fresh frame into the chain root's Stack in place regardless of the global
flag — the original sentinel is protected only because the direct wrap
replaced it with this copy. -/
theorem claim_C1_amended (s1 s2 : Stack) (f1 f2 : StackFrame) (m : String) (ext : Option EErr)
    (st : Stack) (c : Code) (k : List (String × Val)) (m1 m2 : String) :
    Wrap s1 f1 (some (.rootError true m ext st c k)) m1 =
      some (.wrapError m1 (.rootError true m none s1 c []) f1 DEFAULT_ERROR_CODE_WRAP []) ∧
    chainRoot (Wrap s2 f2 (Wrap s1 f1 (some (.rootError true m ext st c k)) m1) m2) =
      some (.rootError true m none (f2 :: s1) c []) :=
  ⟨rfl, rfl⟩

/-- Claim C2, counterexample (corrected): for a local RootNode that wraps
a foreign error, the second wrap (a wrap of the LinkNode above the root)
does not grow the root's Stack, because `Cause` runs past the root into
its foreign cause and the insertion is skipped; after two wraps the
root's stack has initial+1 frames, not initial+2. -/
theorem claim_C2_counterexample :
    (StackFrames (chainRoot (Wrap [⟨"w2", "b.go", 2⟩] ⟨"w2", "b.go", 2⟩
      (Wrap [⟨"w1", "a.go", 1⟩] ⟨"w1", "a.go", 1⟩
        (some (EErr.rootError false "root" (some (.extBasic "external error"))
          [⟨"init", "g.go", 5⟩] 2 [])) "m1")
      "m2"))).length = 2 ∧
    ¬ (StackFrames (chainRoot (Wrap [⟨"w2", "b.go", 2⟩] ⟨"w2", "b.go", 2⟩
      (Wrap [⟨"w1", "a.go", 1⟩] ⟨"w1", "a.go", 1⟩
        (some (EErr.rootError false "root" (some (.extBasic "external error"))
          [⟨"init", "g.go", 5⟩] 2 [])) "m1")
      "m2"))).length = 1 + 2 := by
  refine ⟨by decide, by decide⟩

/-- Claim C2, amended: a direct wrap of a local RootNode (with or without
a foreign cause) grows its Stack by exactly one frame; a wrap of a
LinkNode above a local root grows the root's Stack by one frame provided
the root has no foreign cause (as for roots made by `New`), so two
successive wraps of such a root leave `len(StackFrames)` of the chain's
root at its initial length plus 2.  When the root wraps a foreign error,
only direct wraps of the RootNode itself grow its stack. -/
theorem claim_C2_amended (s1 s2 : Stack) (f1 f2 : StackFrame) (m : String) (ext : Option EErr)
    (st : Stack) (c : Code) (k : List (String × Val)) (m1 m2 : String) :
    Wrap s1 f1 (some (.rootError false m ext st c k)) m1 =
      some (.wrapError m1 (.rootError false m ext (f1 :: st) c k) f1
        DEFAULT_ERROR_CODE_WRAP []) ∧
    chainRoot (Wrap s2 f2 (Wrap s1 f1 (some (.rootError false m none st c k)) m1) m2) =
      some (.rootError false m none (f2 :: f1 :: st) c k) ∧
    (StackFrames (chainRoot (Wrap s2 f2
      (Wrap s1 f1 (some (.rootError false m none st c k)) m1) m2))).length =
      st.length + 2 :=
  ⟨rfl, rfl, by
    show (f2 :: f1 :: st).length = st.length + 2
    simp [List.length_cons]
    try omega⟩

/-- Claim C3 (confirmed): `New("root error")` (code `unknown`), wrapped
with "additional context" and then "even more context" (both with the
default wrap code `internal`), renders without trace as exactly
`code(internal) even more context: code(internal) additional context:
code(unknown) root error`, whether the root was classified global or
local. -/
theorem claim_C3 (g : Bool) :
    ToString (Wrap [⟨"w2", "b.go", 2⟩] ⟨"w2", "b.go", 2⟩
      (Wrap [⟨"w1", "a.go", 1⟩] ⟨"w1", "a.go", 1⟩
        (some (New g [⟨"init", "g.go", 5⟩] "root error")) "additional context")
      "even more context") false =
    "code(internal) even more context: code(internal) additional context: code(unknown) root error" := by
  cases g <;> (rw [ToString, ToCustomString, toCustomStringUp]; decide)

/-- Claim C4 (confirmed): every construction/mutation entry point absorbs
nil — `wrap` (hence `Wrap`/`Wrapf`), `PassThrough`/`PassThroughf`, and
`With` return nil on nil input; `Join` of an all-nil argument list
returns nil, and `Join` returns non-nil whenever at least one argument is
non-nil. -/
theorem claim_C4 :
    (∀ s f m, Wrap s f none m = none) ∧
    (∀ s f m, Wrapf s f none m = none) ∧
    (∀ s f m, PassThrough s f none m = none) ∧
    (∀ s f m, PassThroughf s f none m = none) ∧
    (∀ s f fields, With s f none fields = none) ∧
    (∀ s f errs, (∀ x ∈ errs, x = none) → Join s f errs = none) ∧
    (∀ s f errs e, some e ∈ errs → Join s f errs ≠ none) := by
  refine ⟨fun _ _ _ => rfl, fun _ _ _ => rfl, fun _ _ _ => rfl, fun _ _ _ => rfl,
    fun _ _ _ => rfl, ?_, ?_⟩
  · intro s f errs h
    rw [Join]
    have : errs.filterMap id = [] := by
      rw [List.filterMap_eq_nil_iff]
      intro a ha
      rw [h a ha]; rfl
    rw [this]
  · intro s f errs e hmem
    have : e ∈ errs.filterMap id := List.mem_filterMap.mpr ⟨some e, hmem, rfl⟩
    rw [Join]
    match hfm : errs.filterMap id with
    | [] => rw [hfm] at this; cases this
    | x :: xs => exact fun h => Option.noConfusion h

/-- Witness for claim C4 at concrete inputs. -/
theorem claim_C4_witness :
    Join [] ⟨"w", "a.go", 1⟩ [none, none] = none ∧
    Join [] ⟨"w", "a.go", 1⟩ [none, some (.extBasic "x")] ≠ none :=
  ⟨claim_C4.2.2.2.2.2.1 [] ⟨"w", "a.go", 1⟩ [none, none]
     (by intro x hx; simp only [List.mem_cons, List.not_mem_nil, or_false] at hx;
         rcases hx with h | h <;> exact h),
   claim_C4.2.2.2.2.2.2 [] ⟨"w", "a.go", 1⟩ [none, some (.extBasic "x")] (.extBasic "x")
     (by simp)⟩

/-- When `wrap` hands back a wrap-headed error, `PassThroughf` mutates
that head: the source's code is copied onto it unless it is the
`unknown` fallback, and every property of the source is set on it. -/
theorem passThroughf_head_wrap (s : Stack) (f : StackFrame) (e : EErr) (msg : String) (X : EErr)
    (hw : wrap s f (some e) msg DEFAULT_ERROR_CODE_WRAP =
      some (.wrapError msg X f DEFAULT_ERROR_CODE_WRAP [])) :
    PassThroughf s f (some e) msg =
      some (.wrapError msg X f
        (if GetCode (some e) ≠ CodeUnknown then GetCode (some e) else DEFAULT_ERROR_CODE_WRAP)
        ((GetKVs (some e)).foldl (fun a p => kvSet a p.1 p.2) [])) := by
  rw [PassThroughf]
  simp only [hw]
  by_cases hc : GetCode (some e) ≠ CodeUnknown
  · rw [if_pos hc, if_pos hc]
    show (GetKVs (some e)).foldl (fun acc p => WithProperty s f acc p.1 p.2)
      (some (.wrapError msg X f (GetCode (some e)) [])) = _
    rw [foldl_withProperty_wrap]
  · rw [if_neg hc, if_neg hc]
    rw [foldl_withProperty_wrap]

/-- Claim C5, counterexample (corrected): for a source whose code is the
`unknown` default (as produced by `New`), `PassThrough` does not copy the
code — the head keeps the `internal` wrap default, so "GetCode of the
result equals GetCode of err ... for every source code" fails at this
input. -/
theorem claim_C5_counterexample :
    GetCode (PassThrough [⟨"w", "a.go", 1⟩] ⟨"w", "a.go", 1⟩
      (some (New false [⟨"init", "g.go", 5⟩] "root error")) "additional context") ≠
    GetCode (some (New false [⟨"init", "g.go", 5⟩] "root error")) := by
  decide

/-- Claim C5, amended: for every non-nil source, `PassThroughf` copies the
source's code onto the new head exactly when that code is not the
`unknown` fallback (otherwise the head keeps the `internal` wrap
default), and — provided the source's property keys are distinct, as Go
maps guarantee — the result's properties contain every key/value pair of
the source's. -/
theorem claim_C5_amended (s : Stack) (f : StackFrame) (e : EErr) (msg : String) :
    (GetCode (some e) ≠ DEFAULT_UNKNOWN_CODE →
      GetCode (PassThroughf s f (some e) msg) = GetCode (some e)) ∧
    (GetCode (some e) = DEFAULT_UNKNOWN_CODE →
      GetCode (PassThroughf s f (some e) msg) = DEFAULT_ERROR_CODE_WRAP) ∧
    (((GetKVs (some e)).map Prod.fst).Nodup →
      ∀ k v, kvLookup (GetKVs (some e)) k = some v →
        kvLookup (GetKVs (PassThroughf s f (some e) msg)) k = some v) := by
  have native : ∀ X : EErr,
      wrap s f (some e) msg DEFAULT_ERROR_CODE_WRAP =
        some (.wrapError msg X f DEFAULT_ERROR_CODE_WRAP []) →
      (GetCode (some e) ≠ DEFAULT_UNKNOWN_CODE →
        GetCode (PassThroughf s f (some e) msg) = GetCode (some e)) ∧
      (GetCode (some e) = DEFAULT_UNKNOWN_CODE →
        GetCode (PassThroughf s f (some e) msg) = DEFAULT_ERROR_CODE_WRAP) ∧
      (((GetKVs (some e)).map Prod.fst).Nodup →
        ∀ k v, kvLookup (GetKVs (some e)) k = some v →
          kvLookup (GetKVs (PassThroughf s f (some e) msg)) k = some v) := by
    intro X hw
    rw [DEFAULT_UNKNOWN_CODE]
    refine ⟨?_, ?_, ?_⟩
    · intro hc
      rw [passThroughf_head_wrap s f e msg X hw]
      show (if GetCode (some e) ≠ CodeUnknown then GetCode (some e)
        else DEFAULT_ERROR_CODE_WRAP) = GetCode (some e)
      rw [if_pos hc]
    · intro hc
      rw [passThroughf_head_wrap s f e msg X hw]
      show (if GetCode (some e) ≠ CodeUnknown then GetCode (some e)
        else DEFAULT_ERROR_CODE_WRAP) = DEFAULT_ERROR_CODE_WRAP
      rw [if_neg (fun hne => hne hc)]
    · intro hnd k v hkv
      rw [passThroughf_head_wrap s f e msg X hw]
      show kvLookup ((GetKVs (some e)).foldl (fun a p => kvSet a p.1 p.2) []) k = some v
      rw [foldl_kvSet_nil _ hnd]
      exact hkv
  match e with
  | .rootError g m x st c kv =>
      cases g with
      | true => exact native (.rootError true m none s c []) rfl
      | false => exact native (.rootError false m x (f :: st) c kv) rfl
  | .wrapError m e' f' c kv =>
      exact native (insertAtCauseRoot (.wrapError m e' f' c kv) f) rfl
  | .extBasic m =>
      exact ⟨fun h => absurd rfl h, fun _ => rfl,
        fun _ k v h => Option.noConfusion h⟩
  | .extJoin ms =>
      exact ⟨fun h => absurd rfl h, fun _ => rfl,
        fun _ k v h => Option.noConfusion h⟩
  | .extLayer m i =>
      exact ⟨fun h => absurd rfl h, fun _ => rfl,
        fun _ k v h => Option.noConfusion h⟩

/-- Witness for claim C5 at a concrete input: a root with code
`data loss` and one property. -/
theorem claim_C5_witness :
    GetCode (some (EErr.rootError false "root" none [⟨"init", "g.go", 5⟩] CodeDataLoss
        [("k", .vint 1)])) ≠ DEFAULT_UNKNOWN_CODE ∧
    GetCode (PassThroughf [⟨"w", "a.go", 1⟩] ⟨"w", "a.go", 1⟩
      (some (EErr.rootError false "root" none [⟨"init", "g.go", 5⟩] CodeDataLoss
        [("k", .vint 1)])) "more context") =
      GetCode (some (EErr.rootError false "root" none [⟨"init", "g.go", 5⟩] CodeDataLoss
        [("k", .vint 1)])) ∧
    kvLookup (GetKVs (PassThroughf [⟨"w", "a.go", 1⟩] ⟨"w", "a.go", 1⟩
      (some (EErr.rootError false "root" none [⟨"init", "g.go", 5⟩] CodeDataLoss
        [("k", .vint 1)])) "more context")) "k" = some (.vint 1) :=
  ⟨by decide,
   (claim_C5_amended [⟨"w", "a.go", 1⟩] ⟨"w", "a.go", 1⟩
     (EErr.rootError false "root" none [⟨"init", "g.go", 5⟩] CodeDataLoss
       [("k", .vint 1)]) "more context").1 (by decide),
   (claim_C5_amended [⟨"w", "a.go", 1⟩] ⟨"w", "a.go", 1⟩
     (EErr.rootError false "root" none [⟨"init", "g.go", 5⟩] CodeDataLoss
       [("k", .vint 1)]) "more context").2.2 (by decide) "k" (.vint 1) (by decide)⟩

/-- Claim C6 (confirmed): `Is` matches independently into each member of a
joined error — for every pair of non-nil member errors, the chain
`Wrap(Join(e1, e2), "ctx")` matches both `e1` and `e2`. -/
theorem claim_C6 (e1 e2 : EErr) (s1 s2 : Stack) (f1 f2 : StackFrame) :
    Is (Wrap s2 f2 (Join s1 f1 [some e1, some e2]) "ctx") (some e1) = true ∧
    Is (Wrap s2 f2 (Join s1 f1 [some e1, some e2]) "ctx") (some e2) = true := by
  have hwrap : Wrap s2 f2 (Join s1 f1 [some e1, some e2]) "ctx" =
      some (.wrapError "ctx"
        (.rootError false "join error" (some (.extJoin [e1, e2])) (f2 :: s1)
          DEFAULT_ERROR_CODE_NEW [])
        f2 DEFAULT_ERROR_CODE_WRAP []) := by
    rw [Join]; rfl
  rw [hwrap]
  have key : ∀ t : EErr, isAnyMember [e1, e2] t = true →
      Is (some (.wrapError "ctx"
        (.rootError false "join error" (some (.extJoin [e1, e2])) (f2 :: s1)
          DEFAULT_ERROR_CODE_NEW [])
        f2 DEFAULT_ERROR_CODE_WRAP [])) (some t) = true := by
    intro t ht
    show isChain _ t = true
    rw [isChain, isChain]
    simp only [ht]
    simp
  refine ⟨key e1 ?_, key e2 ?_⟩
  · rw [isAnyMember, isChain_self]; rfl
  · rw [isAnyMember, isAnyMember, isChain_self]; simp

/-- Claim C8, counterexample (corrected): a chain whose root has an empty
message and an empty stack but does carry a property (and the default
`New` code) still omits the `root` key — the omission check looks only at
the message and the stack, so "the `root` key is still present" fails at
this input. -/
theorem claim_C8_counterexample :
    jsonHasKey (ToCustomJSON (some (EErr.rootError false "" none [] 2 [("k", Val.vint 1)]))
      (NewDefaultJSONFormat ⟨false, false, false, true⟩)) "root" = false := by
  rw [ToCustomJSON, toCustomJSONUp, jsonExtPart.eq_def]
  decide

/-- Claim C8, amended: `ToCustomJSON` carries the `root` key exactly when
the unpacked root has a non-empty message or a non-empty stack — the
root's properties and code play no part in the omission, and no other
chain content (external part, wrap list) can contribute a `root` key. -/
theorem claim_C8_amended (err : Option EErr) (jf : JSONFormat) :
    jsonHasKey (ToCustomJSON err jf) "root" = true ↔
      ((Unpack err).ErrRoot.Msg ≠ "" ∨ (Unpack err).ErrRoot.Stack ≠ []) := by
  rw [ToCustomJSON, toCustomJSONUp]
  simp only [jsonHasKey, List.any_append, Bool.or_eq_true]
  rw [show (jsonExtPart (Unpack err).ErrExternal jf).any (fun p => p.1 = "root") = false from
    jsonExtPart_no_root _ _]
  by_cases hc : (Unpack err).ErrRoot.Msg ≠ "" ∨ (Unpack err).ErrRoot.Stack ≠ [] <;>
    by_cases hw : (Unpack err).ErrChain ≠ [] <;>
    simp [hc, hw]

/-- Claim C9, counterexample (corrected): `ToString` of a nil error is not
the empty string — the zero-valued unpacked root carries code `0`, which
differs from `DEFAULT_ERROR_CODE_NEW`, so the default-error suppression
does not fire and the root renders as `code(unknown) `. -/
theorem claim_C9_counterexample : ToString none false ≠ "" := by
  rw [ToString, ToCustomString, toCustomStringUp]
  decide

/-- Claim C9, amended: for a nil error the structured forms return the
empty map under every format, but the string forms render the zero-valued
root: `ToCustomString` yields `code(unknown) ` followed by the
message/stack separator (with a leading space when the output is
inverted), and `ToString` yields `code(unknown) ` (plus a newline with
trace enabled). -/
theorem claim_C9_amended :
    (∀ sf : StringFormat, ToCustomString none sf =
      (if sf.options.invertOutput then " " else "") ++ "code(unknown) " ++ sf.msgStackSep) ∧
    (∀ wt : Bool, ToString none wt = "code(unknown) " ++ (if wt then "\n" else "")) ∧
    (∀ jf : JSONFormat, ToCustomJSON none jf = []) ∧
    (∀ wt : Bool, ToJSON none wt = []) := by
  have hjson : ∀ jf : JSONFormat, ToCustomJSON none jf = [] := by
    intro jf
    rw [ToCustomJSON, toCustomJSONUp, jsonExtPart.eq_def]
    simp [Unpack, zeroUnpacked]
  refine ⟨?_, ?_, hjson, fun wt => hjson _⟩
  · intro sf
    rw [ToCustomString, toCustomStringUp]
    simp only [Unpack, zeroUnpacked]
    by_cases hinv : sf.options.invertOutput
    · simp only [hinv, if_true, zeroRoot_formatStr]
      simp [String.length_append]
      rw [if_pos (Or.inl (by decide))]
      show " " ++ ("code(unknown) " ++ sf.msgStackSep) ++ String.join [] =
        " code(unknown) " ++ sf.msgStackSep
      rw [show String.join ([] : List String) = "" from rfl, String.append_empty,
        ← String.append_assoc]
      rfl
    · simp only [hinv, Bool.false_eq_true, if_false, zeroRoot_formatStr]
      show String.join [] ++ ("code(unknown) " ++ sf.msgStackSep) ++ "" =
        "" ++ "code(unknown) " ++ sf.msgStackSep
      rw [show String.join ([] : List String) = "" from rfl, String.append_empty,
        String.empty_append, String.empty_append]
  · intro wt
    cases wt <;> (rw [ToString, ToCustomString, toCustomStringUp]; decide)

/-- Claim C7, counterexample (corrected): a foreign error that itself
implements `Unwrap() error` (here a `fmt.Errorf("...: %w", inner)`-style
wrapper) is mapped by `Unwrap` to its inner error, not to nil, so "every
other input — including every foreign error value — to nil" fails at this
input. -/
theorem claim_C7_counterexample :
    (Unwrap (some (.extLayer "outer" (.extBasic "inner")))).isSome = true := by
  decide

/-- Claim C7, amended: `Unwrap` maps a LinkNode to its next node, a
RootNode to its ForeignError (which may be nil), nil to nil, and a
foreign error to whatever its own `Unwrap() error` method yields: nil for
a plain leaf and for a join aggregate (whose `Unwrap() []error` does not
match the single-error interface), the inner error for a foreign single
wrapper. -/
theorem claim_C7_amended :
    (∀ m e f c k, Unwrap (some (.wrapError m e f c k)) = some e) ∧
    (∀ g m ext st c k, Unwrap (some (.rootError g m ext st c k)) = ext) ∧
    (∀ m, Unwrap (some (.extBasic m)) = none) ∧
    (∀ ms, Unwrap (some (.extJoin ms)) = none) ∧
    (∀ m i, Unwrap (some (.extLayer m i)) = some i) ∧
    Unwrap none = none :=
  ⟨fun _ _ _ _ _ => rfl, fun _ _ _ _ _ _ => rfl, fun _ => rfl, fun _ => rfl,
   fun _ _ => rfl, rfl⟩

/-- Claim C10 (confirmed): whenever at least one argument is non-nil,
`Join` returns a RootNode whose message is exactly `join error`, whose
code is `DEFAULT_ERROR_CODE_NEW` (`unknown`, not the `internal` wrap
default), whose Stack is the fresh capture, and whose ForeignError is the
join aggregate of the non-nil arguments in order. -/
theorem claim_C10 (s : Stack) (f : StackFrame) (errs : List (Option EErr))
    (h : errs.filterMap id ≠ []) :
    Join s f errs = some (.rootError false "join error"
      (some (.extJoin (errs.filterMap id))) s DEFAULT_ERROR_CODE_NEW []) := by
  rw [Join]
  match hfm : errs.filterMap id with
  | [] => exact absurd hfm h
  | x :: xs => rfl

/-- Witness for claim C10 at a concrete input. -/
theorem claim_C10_witness :
    [some (EErr.extBasic "e1"), none, some (EErr.extBasic "e2")].filterMap id ≠ [] ∧
    Join [⟨"w", "a.go", 1⟩] ⟨"w", "a.go", 1⟩
        [some (EErr.extBasic "e1"), none, some (EErr.extBasic "e2")] =
      some (.rootError false "join error"
        (some (.extJoin [.extBasic "e1", .extBasic "e2"])) [⟨"w", "a.go", 1⟩]
        DEFAULT_ERROR_CODE_NEW []) :=
  ⟨fun h => List.noConfusion h, claim_C10 [⟨"w", "a.go", 1⟩] ⟨"w", "a.go", 1⟩
    [some (EErr.extBasic "e1"), none, some (EErr.extBasic "e2")]
    (fun h => List.noConfusion h)⟩

end Eris
